import Mathlib

/-!
# The `put` command of crossing-go (`src/cmd/put.go`)

A shallow embedding of the command `put SOURCE S3URL`:

* `putCmd.Args`      the argument validator (lines 27-36),
* `putCmd.Run`       the handler (lines 37-67), split into the key resolution
                     `putCmd.RunKey` (lines 48-55) and the upload and report
                     `putCmd.RunUpload` (lines 56-65),
* `putS3Cse`         the upload function (lines 70-119).

Go strings are byte sequences, so they are lists of bytes here.  A Go `error`
is represented by the text its `Error()` method returns.  The file system, the
session, the storage backend, the locator parser and the string encoder of
`encoding/json` are inputs, collected in `Env`; every call that leaves the
process is recorded in an effect log.
-/

namespace Crossing

/-! ## Strings and errors -/

/-- A Go string: an immutable sequence of bytes. -/
abbrev GoString := List UInt8

/-- A Go error value, represented by the message of its `Error()` method. -/
abbrev GoError := GoString

/-- The bytes of a string literal of the source (Go literals are UTF-8). -/
def go (s : String) : GoString := s.data.flatMap String.utf8EncodeChar

/-- The byte `/`. -/
def slash : UInt8 := 0x2F

/-- Outcome of a Go call: it returns a value, or it panics. -/
inductive Call (α : Type) where
  | returned (a : α)
  | panicked
  deriving DecidableEq, Repr

/-! ## Key resolution: lines 48-55 of `putCmd.Run` -/

/-- The slice expression `s[len(s)-1:]`.  For an empty `s` the low bound is `-1`
and the expression panics (slice bounds out of range): `none`. -/
def lastByteSlice (s : GoString) : Option GoString :=
  if s.length = 0 then none else some (s.drop (s.length - 1))

namespace putCmd

/-- Lines 48-55 of `Run`: the two consecutive `if` statements that rewrite
`s3object`.  The second statement reads the variable as the first one left it.
`none` is the panic of the slice expression on line 53. -/
def RunKey (s3object sourceFile : GoString) : Option GoString :=
  -- if s3object == "" || s3object == "/" { s3object = sourceFile }
  let s3object := if s3object = go "" ∨ s3object = go "/" then sourceFile else s3object
  -- if s3object[len(s3object)-1:] == "/" { s3object = s3object + sourceFile }
  match lastByteSlice s3object with
  | none => none
  | some last => some (if last = go "/" then s3object ++ sourceFile else s3object)

end putCmd

/-- The predicate "ends with a path-separator character" of the specification:
the last byte of the string is `/`. -/
def EndsWithSlash (s : GoString) : Prop := s.getLast? = some slash

instance (s : GoString) : Decidable (EndsWithSlash s) := by
  unfold EndsWithSlash; infer_instance

/-- The key resolver `resolveKey(parsedKey, sourcePath)` as the specification
words it (section 4.2): three rules, applied in order, first match wins. -/
def resolveKeySpec (parsedKey sourcePath : GoString) : GoString :=
  if parsedKey = go "" ∨ parsedKey = go "/" then sourcePath
  else if EndsWithSlash parsedKey then parsedKey ++ sourcePath
  else parsedKey

/-! ## `encoding/json`: `json.Marshal` of a `*string` (line 110) -/

/-- The call `json.Marshal(p)` for `p` of type `*string`: a nil pointer encodes
as the JSON value `null`, any other as the string pointed to, written by the
string encoder `jsonString` of the library.  No error is returned for this
type.  The string encoder is an input (a field of `Env`): the releases of
`encoding/json` differ in the bytes they write for invalid UTF-8 and for some
control characters. -/
def jsonMarshal (jsonString : GoString → GoString) (p : Option GoString) :
    Except GoError GoString :=
  match p with
  | none => .ok (go "null")
  | some s => .ok (jsonString s)

/-! ## The environment and the effect log -/

/-- A call that leaves the process, or the call of the locator parser. -/
inductive Effect where
  | parseS3Url (url : GoString)
  | osOpen (path : GoString)
  | fileStat (path : GoString)
  | fileRead (path : GoString) (size : Nat)
  | fileClose (path : GoString)
  | newSession
  | kmsNew
  | newKMSKeyGenerator (cmkID : GoString)
  | newEncryptionClient
  | putObject (bucket key contentType body : GoString)
  deriving DecidableEq, Repr

/-- The effects on the session, the key-management service, the encryption
client and the storage backend. -/
def Effect.isBackend : Effect → Bool
  | .newSession => true
  | .kmsNew => true
  | .newKMSKeyGenerator _ => true
  | .newEncryptionClient => true
  | .putObject _ _ _ _ => true
  | _ => false

/-- The effects on the file system or the network: all but the parser call. -/
def Effect.isFileOrNetwork : Effect → Bool
  | .parseS3Url _ => false
  | _ => true

/-- An open file: what `Stat` reports as its size (`none` when `Stat` fails) and
the contents of a zeroed buffer of `n` bytes after `Read`. -/
structure File where
  stat : Option Nat
  read : Nat → GoString

/-- What the command receives from outside.
`parseS3Url` is the locator parser of the repository (its source is not part
of `put.go`), `osOpen` is `os.Open`, `detectContentType` is
`http.DetectContentType`, `newSession` is the error of
`session.NewSessionWithOptions` (`none` when it succeeds), `putObject` is
`PutObject` of the encryption client, which answers with the `VersionId` field
of its output (a `*string`) or with an error, and `jsonString` is the encoder
of `encoding/json` for a Go string. -/
structure Env where
  parseS3Url : GoString → Except GoError (GoString × GoString)
  osOpen : GoString → Except GoError File
  detectContentType : GoString → GoString
  newSession : Option GoError
  putObject : (bucket key contentType body cmkID : GoString) → Except GoError (Option GoString)
  jsonString : GoString → GoString

/-! ## `putS3Cse`: lines 70-119 -/

/-- The function `putS3Cse(bucket, key, kmskeyid, source)`.  The result pairs
the effect log with the outcome: `.ok versionId` is the Go result
`(versionId, nil)` and `.error e` is `(nil, e)`.  The deferred `file.Close()`
runs last on every path after a successful open.  The call panics when `Stat`
fails (method call on a nil `fileInfo`) and when `session.Must` receives an
error. -/
def putS3Cse (env : Env) (bucket key kmskeyid source : GoString) :
    List Effect × Call (Except GoError GoString) :=
  match env.osOpen source with
  | .error err =>
    ([.osOpen source], .returned (.error (go "err opening file: " ++ err)))
  | .ok file =>
    match file.stat with
    | none => ([.osOpen source, .fileStat source, .fileClose source], .panicked)
    | some size =>
      let buffer := file.read size
      let fileType := env.detectContentType buffer
      match env.newSession with
      | some _ =>
        ([.osOpen source, .fileStat source, .fileRead source size, .newSession,
          .fileClose source], .panicked)
      | none =>
        let log : List Effect :=
          [.osOpen source, .fileStat source, .fileRead source size, .newSession, .kmsNew,
            .newKMSKeyGenerator kmskeyid, .newEncryptionClient,
            .putObject bucket key fileType buffer, .fileClose source]
        match env.putObject bucket key fileType buffer kmskeyid with
        | .error err => (log, .returned (.error (go "bad response: " ++ err)))
        | .ok resultVersionId =>
          match jsonMarshal env.jsonString resultVersionId with
          | .error err => (log, .returned (.error (go "Issue with json.Marshal " ++ err)))
          | .ok versionId => (log, .returned (.ok versionId))

/-! ## The command: lines 22-68 -/

/-- How the handler ends: it returns (the process then ends with status 0), it
calls `os.Exit(code)`, or it panics. -/
inductive Status where
  | returned
  | exited (code : Nat)
  | panicked
  deriving DecidableEq, Repr

/-- What a run of the handler leaves behind: the effect log, the text its
`Fprintf` calls wrote to standard output and to standard error, and how it
ended. -/
structure RunResult where
  log : List Effect
  stdout : GoString
  stderr : GoString
  status : Status
  deriving DecidableEq, Repr

/-- The validator `cobra.ExactArgs(n)`: an error unless there are exactly `n`
arguments. -/
def cobraExactArgs (n : Nat) (args : List GoString) : Option GoError :=
  if args.length ≠ n then
    some (go "accepts " ++ go (toString n) ++ go " arg(s), received " ++
      go (toString args.length))
  else none

namespace putCmd

/-- The field `Args` of `putCmd` (lines 27-36), with the locator parser as a
parameter.  The result pairs the effect log with the returned error (`none`
is the Go result `nil`). -/
def Args (parseS3Url : GoString → Except GoError (GoString × GoString))
    (args : List GoString) : List Effect × Call (Option GoError) :=
  match cobraExactArgs 2 args with
  | some err => ([], .returned (some err))
  | none =>
    match args[1]? with
    | none => ([], .panicked)
    | some url =>
      match parseS3Url url with
      | .error _ => ([.parseS3Url url], .returned (some (go "invalid S3 URL: " ++ url)))
      | .ok _ => ([.parseS3Url url], .returned none)

/-- Lines 56-65 of `Run`: the call of `putS3Cse` with the resolved key, then the
report.  `kmskeyid` and `flagBool` are the values `viper` holds for
`kmskeyid` and `verboseoutput`. -/
def RunUpload (env : Env) (kmskeyid : GoString) (flagBool : Bool)
    (s3bucket s3object sourceFile : GoString) : RunResult :=
  match putS3Cse env s3bucket s3object kmskeyid sourceFile with
  | (log, .panicked) => ⟨log, [], [], .panicked⟩
  | (log, .returned (.error err)) =>
    ⟨log, [], go "err uploading file: " ++ err ++ go "\n", .exited 1⟩
  | (log, .returned (.ok versionId)) =>
    ⟨log, if flagBool then go "\x7b \"VersionId\": " ++ versionId ++ go " \x7d\n" else [], [],
      .returned⟩

/-- The field `Run` of `putCmd` (lines 37-67). -/
def Run (env : Env) (kmskeyid : GoString) (flagBool : Bool) (args : List GoString) :
    RunResult :=
  match args[0]? with
  | none => ⟨[], [], [], .panicked⟩
  | some sourceFile =>
    match args[1]? with
    | none => ⟨[], [], [], .panicked⟩
    | some url =>
      match env.parseS3Url url with
      | .error err => ⟨[.parseS3Url url], [], err, .exited 1⟩
      | .ok (s3bucket, s3object) =>
        match RunKey s3object sourceFile with
        | none => ⟨[.parseS3Url url], [], [], .panicked⟩
        | some key =>
          let r := RunUpload env kmskeyid flagBool s3bucket key sourceFile
          { r with log := .parseS3Url url :: r.log }

end putCmd

/-! ## A sample environment -/

/-- Modelled from the spec: the locator parser `parseS3Url`, which is called
by `put.go` and defined elsewhere in the repository.  Section 4.1: a locator
`bucket` or `bucket/key` is split at the first path separator, and the parser
fails with `InvalidLocator` when the bucket part is empty. -/
def sampleParseS3Url (raw : GoString) : Except GoError (GoString × GoString) :=
  let bucket := raw.takeWhile (fun b => b != slash)
  let key := (raw.dropWhile (fun b => b != slash)).drop 1
  if bucket = [] then .error (go "InvalidLocator") else .ok (bucket, key)

/-- The string encoder of the sample environment: the string between two
double quotes.  This is what `encoding/json` writes for a string that needs no
escape, such as an identifier of ASCII letters and digits; the sample backend
is meant to answer with such identifiers only. -/
def sampleJsonString (v : GoString) : GoString := [0x22] ++ v ++ [0x22]

/-- A sample environment: the only file is `report.pdf` (five bytes, the
signature of a PDF document), the session can be created, and the backend
answers every put with `answer`. -/
def sampleEnv (answer : Except GoError (Option GoString)) : Env where
  parseS3Url := sampleParseS3Url
  osOpen := fun path =>
    if path = go "report.pdf" then .ok ⟨some 5, fun n => (go "%PDF-").take n⟩
    else .error (go "open " ++ path ++ go ": no such file or directory")
  detectContentType := fun _ => go "application/pdf"
  newSession := none
  putObject := fun _ _ _ _ _ => answer
  jsonString := sampleJsonString

/-! ## Lemmas on the key resolution -/

theorem go_slash : go "/" = [slash] := by decide

theorem drop_length_pred (s : GoString) (h : s ≠ []) :
    s.drop (s.length - 1) = [s.getLast h] := by
  induction s with
  | nil => exact absurd rfl h
  | cons a t ih =>
    cases t with
    | nil => rfl
    | cons b u =>
      have hne : b :: u ≠ [] := List.cons_ne_nil b u
      have := ih hne
      simpa [List.getLast_cons hne] using this

theorem lastByteSlice_of_ne_nil (s : GoString) (h : s ≠ []) :
    lastByteSlice s = some [s.getLast h] := by
  have hlen : s.length ≠ 0 := by
    intro h0
    exact h (List.length_eq_zero.mp h0)
  simp [lastByteSlice, hlen, drop_length_pred s h]

theorem getLast_eq_slash_iff (s : GoString) (h : s ≠ []) :
    [s.getLast h] = go "/" ↔ EndsWithSlash s := by
  simp [go_slash, EndsWithSlash, List.getLast?_eq_getLast s h]

/-- The key resolution on a variable that is not empty when line 53 reads it. -/
theorem RunKey_of_ne_nil (p s : GoString)
    (h : (if p = go "" ∨ p = go "/" then s else p) ≠ []) :
    putCmd.RunKey p s =
      some (if EndsWithSlash (if p = go "" ∨ p = go "/" then s else p)
        then (if p = go "" ∨ p = go "/" then s else p) ++ s
        else (if p = go "" ∨ p = go "/" then s else p)) := by
  unfold putCmd.RunKey
  simp only [lastByteSlice_of_ne_nil _ h, getLast_eq_slash_iff _ h]

theorem endsWithSlash_append (p s : GoString) (hs : s ≠ []) :
    EndsWithSlash (p ++ s) ↔ EndsWithSlash s := by
  unfold EndsWithSlash
  rw [List.getLast?_append, List.getLast?_eq_getLast s hs]
  simp

theorem endsWithSlash_slash : EndsWithSlash (go "/") := by decide

/-- The handler, once the locator is parsed and the key is resolved, is the
upload and report of lines 56-65 on the resolved key. -/
theorem Run_of_key (env : Env) (kmskeyid : GoString) (flagBool : Bool)
    (sourceFile url s3bucket s3object key : GoString)
    (hparse : env.parseS3Url url = .ok (s3bucket, s3object))
    (hkey : putCmd.RunKey s3object sourceFile = some key) :
    putCmd.Run env kmskeyid flagBool [sourceFile, url] =
      { putCmd.RunUpload env kmskeyid flagBool s3bucket key sourceFile with
        log := .parseS3Url url ::
          (putCmd.RunUpload env kmskeyid flagBool s3bucket key sourceFile).log } := by
  simp [putCmd.Run, hparse, hkey]

/-- First statement taken, second not: the variable becomes the source path. -/
theorem RunKey_source (p s : GoString) (hkey : p = go "" ∨ p = go "/")
    (hne : s ≠ go "") (hend : ¬ EndsWithSlash s) : putCmd.RunKey p s = some s := by
  have hvar : (if p = go "" ∨ p = go "/" then s else p) = s := if_pos hkey
  have hnil : (if p = go "" ∨ p = go "/" then s else p) ≠ [] := by rw [hvar]; exact hne
  rw [RunKey_of_ne_nil _ _ hnil, hvar, if_neg hend]

/-- First statement skipped, second taken: the source path is appended. -/
theorem RunKey_append (p s : GoString) (hne : p ≠ go "") (hns : p ≠ go "/")
    (hend : EndsWithSlash p) : putCmd.RunKey p s = some (p ++ s) := by
  have hvar : (if p = go "" ∨ p = go "/" then s else p) = p :=
    if_neg (fun h => h.elim hne hns)
  have hnil : (if p = go "" ∨ p = go "/" then s else p) ≠ [] := by rw [hvar]; exact hne
  rw [RunKey_of_ne_nil _ _ hnil, hvar, if_pos hend]

/-- Both statements skipped: the variable keeps the parsed key. -/
theorem RunKey_unchanged (p s : GoString) (hne : p ≠ go "") (hend : ¬ EndsWithSlash p) :
    putCmd.RunKey p s = some p := by
  have hns : p ≠ go "/" := fun h => hend (h ▸ endsWithSlash_slash)
  have hvar : (if p = go "" ∨ p = go "/" then s else p) = p :=
    if_neg (fun h => h.elim hne hns)
  have hnil : (if p = go "" ∨ p = go "/" then s else p) ≠ [] := by rw [hvar]; exact hne
  rw [RunKey_of_ne_nil _ _ hnil, hvar, if_neg hend]

/-! ## Key resolution: claims C1 to C5 and C10 -/

/-- C1, as stated, fails: with an empty parsed key and the source path `dir/`,
the key passed on is `dir/dir/`, not the source path. -/
theorem C1_source_not_verbatim :
    putCmd.RunKey (go "") (go "dir/") = some (go "dir/dir/") ∧
      putCmd.RunKey (go "") (go "dir/") ≠ some (go "dir/") := by
  decide

/-- C1, amended: when the parsed key is empty or exactly `/` and the source
path is non-empty and does not end with `/`, the key resolution yields the
source path verbatim, and the handler runs the upload of lines 56-65 with the
source path as the object key. -/
theorem C1_bare_bucket_key (parsedKey sourcePath : GoString)
    (hkey : parsedKey = go "" ∨ parsedKey = go "/")
    (hne : sourcePath ≠ go "") (hend : ¬ EndsWithSlash sourcePath) :
    putCmd.RunKey parsedKey sourcePath = some sourcePath ∧
      ∀ (env : Env) (kmskeyid : GoString) (flagBool : Bool) (url bucket : GoString),
        env.parseS3Url url = .ok (bucket, parsedKey) →
        putCmd.Run env kmskeyid flagBool [sourcePath, url] =
          { putCmd.RunUpload env kmskeyid flagBool bucket sourcePath sourcePath with
            log := .parseS3Url url ::
              (putCmd.RunUpload env kmskeyid flagBool bucket sourcePath sourcePath).log } := by
  have h1 : putCmd.RunKey parsedKey sourcePath = some sourcePath :=
    RunKey_source parsedKey sourcePath hkey hne hend
  exact ⟨h1, fun env kmskeyid flagBool url bucket hparse =>
    Run_of_key env kmskeyid flagBool sourcePath url bucket parsedKey sourcePath hparse h1⟩

/-- C1, amended, at the parsed key `/` and the source `foo.txt`. -/
theorem C1_bare_bucket_key_witness :
    (go "/" = go "" ∨ go "/" = go "/") ∧ go "foo.txt" ≠ go "" ∧
      ¬ EndsWithSlash (go "foo.txt") ∧
      putCmd.RunKey (go "/") (go "foo.txt") = some (go "foo.txt") :=
  ⟨by decide, by decide, by decide,
    (C1_bare_bucket_key (go "/") (go "foo.txt") (by decide) (by decide) (by decide)).1⟩

/-- C2: a parsed key that is non-empty, is not exactly `/` and ends with `/` is
used as a literal string in front of the source path: the resolved key is the
plain concatenation, for every source path, and the handler runs the upload of
lines 56-65 with it. -/
theorem C2_key_before_source (p s : GoString)
    (hne : p ≠ go "") (hns : p ≠ go "/") (hend : EndsWithSlash p) :
    putCmd.RunKey p s = some (p ++ s) ∧
      ∀ (env : Env) (kmskeyid : GoString) (flagBool : Bool) (url bucket : GoString),
        env.parseS3Url url = .ok (bucket, p) →
        putCmd.Run env kmskeyid flagBool [s, url] =
          { putCmd.RunUpload env kmskeyid flagBool bucket (p ++ s) s with
            log := .parseS3Url url ::
              (putCmd.RunUpload env kmskeyid flagBool bucket (p ++ s) s).log } := by
  have h1 : putCmd.RunKey p s = some (p ++ s) := RunKey_append p s hne hns hend
  exact ⟨h1, fun env kmskeyid flagBool url bucket hparse =>
    Run_of_key env kmskeyid flagBool s url bucket p (p ++ s) hparse h1⟩

/-- C2 at the parsed key `prefix/` and the source `foo.txt`. -/
theorem C2_key_before_source_witness :
    go "prefix/" ≠ go "" ∧ go "prefix/" ≠ go "/" ∧ EndsWithSlash (go "prefix/") ∧
      putCmd.RunKey (go "prefix/") (go "foo.txt") = some (go "prefix/foo.txt") :=
  ⟨by decide, by decide, by decide,
    (C2_key_before_source (go "prefix/") (go "foo.txt") (by decide) (by decide) (by decide)).1⟩

/-- C3: a parsed key that is non-empty and does not end with `/` is the
resolved key, whatever the source path is, and the handler runs the upload of
lines 56-65 with it. -/
theorem C3_exact_key (p s : GoString) (hne : p ≠ go "") (hend : ¬ EndsWithSlash p) :
    putCmd.RunKey p s = some p ∧
      ∀ (env : Env) (kmskeyid : GoString) (flagBool : Bool) (url bucket : GoString),
        env.parseS3Url url = .ok (bucket, p) →
        putCmd.Run env kmskeyid flagBool [s, url] =
          { putCmd.RunUpload env kmskeyid flagBool bucket p s with
            log := .parseS3Url url ::
              (putCmd.RunUpload env kmskeyid flagBool bucket p s).log } := by
  have h1 : putCmd.RunKey p s = some p := RunKey_unchanged p s hne hend
  exact ⟨h1, fun env kmskeyid flagBool url bucket hparse =>
    Run_of_key env kmskeyid flagBool s url bucket p p hparse h1⟩

/-- C3 at the parsed key `exact-key` and the source `foo.txt`. -/
theorem C3_exact_key_witness :
    go "exact-key" ≠ go "" ∧ ¬ EndsWithSlash (go "exact-key") ∧
      putCmd.RunKey (go "exact-key") (go "foo.txt") = some (go "exact-key") :=
  ⟨by decide, by decide,
    (C3_exact_key (go "exact-key") (go "foo.txt") (by decide) (by decide)).1⟩

/-- C4, the failing input: with an empty source path and a parsed key that is
empty or `/`, the slice expression of line 53 is evaluated on the empty string
and panics, so the handler panics after parsing and before any upload. -/
theorem C4_empty_source_panics :
    putCmd.RunKey (go "") (go "") = none ∧ putCmd.RunKey (go "/") (go "") = none ∧
      putCmd.Run (sampleEnv (.ok none)) (go "cmk") false [go "", go "mybucket"] =
        ⟨[.parseS3Url (go "mybucket")], [], [], .panicked⟩ := by
  decide

/-- C5, as stated, fails: the parsed key `archive/` with the source path
`dir/` resolves to `archive/dir/`, which ends with `/`. -/
theorem C5_key_ends_with_slash :
    putCmd.RunKey (go "archive/") (go "dir/") = some (go "archive/dir/") ∧
      EndsWithSlash (go "archive/dir/") := by
  decide

/-- C5, amended: when the parsed key is non-empty and does not end with `/`, or
the source path is non-empty and does not end with `/`, the key resolution
yields a key, and that key is non-empty and does not end with `/`. -/
theorem C5_resolved_key_shape (p s : GoString)
    (h : (p ≠ go "" ∧ ¬ EndsWithSlash p) ∨ (s ≠ go "" ∧ ¬ EndsWithSlash s)) :
    ∃ key, putCmd.RunKey p s = some key ∧ key ≠ go "" ∧ ¬ EndsWithSlash key := by
  by_cases hp : p ≠ go "" ∧ ¬ EndsWithSlash p
  · exact ⟨p, RunKey_unchanged p s hp.1 hp.2, hp.1, hp.2⟩
  · have hs : s ≠ go "" ∧ ¬ EndsWithSlash s := h.resolve_left hp
    by_cases hkey : p = go "" ∨ p = go "/"
    · exact ⟨s, RunKey_source p s hkey hs.1 hs.2, hs.1, hs.2⟩
    · have hne : p ≠ go "" := fun e => hkey (Or.inl e)
      have hns : p ≠ go "/" := fun e => hkey (Or.inr e)
      have hend : EndsWithSlash p := by
        by_contra hc
        exact hp ⟨hne, hc⟩
      refine ⟨p ++ s, RunKey_append p s hne hns hend, ?_, ?_⟩
      · intro e
        exact hne (List.append_eq_nil.mp e).1
      · rw [endsWithSlash_append p s hs.1]
        exact hs.2

/-- C5, amended, at the parsed key `archive/` and the source `report.pdf`. -/
theorem C5_resolved_key_shape_witness :
    ((go "archive/" ≠ go "" ∧ ¬ EndsWithSlash (go "archive/")) ∨
        (go "report.pdf" ≠ go "" ∧ ¬ EndsWithSlash (go "report.pdf"))) ∧
      ∃ key, putCmd.RunKey (go "archive/") (go "report.pdf") = some key ∧ key ≠ go "" ∧
        ¬ EndsWithSlash key :=
  ⟨by decide, C5_resolved_key_shape (go "archive/") (go "report.pdf") (by decide)⟩

/-- C10: on every source path that is non-empty and does not end with `/`, the
two consecutive statements of the handler compute the key of the three-rule
resolver of the specification, without a panic, and that key is non-empty and
does not end with `/`. -/
theorem C10_RunKey_refines_resolveKey (p s : GoString)
    (hne : s ≠ go "") (hend : ¬ EndsWithSlash s) :
    putCmd.RunKey p s = some (resolveKeySpec p s) ∧ resolveKeySpec p s ≠ go "" ∧
      ¬ EndsWithSlash (resolveKeySpec p s) := by
  unfold resolveKeySpec
  by_cases hkey : p = go "" ∨ p = go "/"
  · rw [if_pos hkey]
    exact ⟨RunKey_source p s hkey hne hend, hne, hend⟩
  · have hpne : p ≠ go "" := fun e => hkey (Or.inl e)
    have hpns : p ≠ go "/" := fun e => hkey (Or.inr e)
    rw [if_neg hkey]
    by_cases hp : EndsWithSlash p
    · rw [if_pos hp]
      refine ⟨RunKey_append p s hpne hpns hp, ?_, ?_⟩
      · intro e
        exact hpne (List.append_eq_nil.mp e).1
      · rw [endsWithSlash_append p s hne]
        exact hend
    · rw [if_neg hp]
      exact ⟨RunKey_unchanged p s hpne hp, hpne, hp⟩

/-- C10 at the three scenarios of the specification with the source
`report.pdf`: the parsed keys ``, `archive/` and `final.pdf`. -/
theorem C10_RunKey_refines_resolveKey_witness :
    go "report.pdf" ≠ go "" ∧ ¬ EndsWithSlash (go "report.pdf") ∧
      putCmd.RunKey (go "") (go "report.pdf") = some (go "report.pdf") ∧
      putCmd.RunKey (go "archive/") (go "report.pdf") = some (go "archive/report.pdf") ∧
      putCmd.RunKey (go "final.pdf") (go "report.pdf") = some (go "final.pdf") :=
  ⟨by decide, by decide,
    (C10_RunKey_refines_resolveKey (go "") (go "report.pdf") (by decide) (by decide)).1,
    (C10_RunKey_refines_resolveKey (go "archive/") (go "report.pdf") (by decide)
      (by decide)).1,
    (C10_RunKey_refines_resolveKey (go "final.pdf") (go "report.pdf") (by decide)
      (by decide)).1⟩

/-! ## Lemmas on `putS3Cse` and on the report -/

/-- The successful path of `putS3Cse`: the returned bytes are the JSON encoding
of the `VersionId` field that the backend answered with. -/
theorem putS3Cse_ok (env : Env) (bucket key kmskeyid source : GoString) (file : File)
    (size : Nat) (versionId : Option GoString)
    (hopen : env.osOpen source = .ok file) (hstat : file.stat = some size)
    (hsess : env.newSession = none)
    (hput : env.putObject bucket key (env.detectContentType (file.read size))
      (file.read size) kmskeyid = .ok versionId) :
    (putS3Cse env bucket key kmskeyid source).2 =
      .returned (.ok (match versionId with
        | some v => env.jsonString v
        | none => go "null")) := by
  cases versionId <;> simp [putS3Cse, hopen, hstat, hsess, hput, jsonMarshal]

/-- The rejected path of `putS3Cse`: the error of the backend is wrapped. -/
theorem putS3Cse_rejected (env : Env) (bucket key kmskeyid source : GoString) (file : File)
    (size : Nat) (m : GoError)
    (hopen : env.osOpen source = .ok file) (hstat : file.stat = some size)
    (hsess : env.newSession = none)
    (hput : env.putObject bucket key (env.detectContentType (file.read size))
      (file.read size) kmskeyid = .error m) :
    (putS3Cse env bucket key kmskeyid source).2 =
      .returned (.error (go "bad response: " ++ m)) := by
  simp [putS3Cse, hopen, hstat, hsess, hput]

/-- The report of lines 59-62 for an error of `putS3Cse`. -/
theorem RunUpload_error (env : Env) (kmskeyid : GoString) (flagBool : Bool)
    (bucket key source : GoString) (log : List Effect) (e : GoError)
    (herr : putS3Cse env bucket key kmskeyid source = (log, .returned (.error e))) :
    putCmd.RunUpload env kmskeyid flagBool bucket key source =
      ⟨log, [], go "err uploading file: " ++ e ++ go "\n", .exited 1⟩ := by
  simp [putCmd.RunUpload, herr]

/-- The report of lines 63-65 for a result of `putS3Cse`. -/
theorem RunUpload_ok (env : Env) (kmskeyid : GoString) (flagBool : Bool)
    (bucket key source : GoString) (versionId : GoString)
    (hok : (putS3Cse env bucket key kmskeyid source).2 = .returned (.ok versionId)) :
    putCmd.RunUpload env kmskeyid flagBool bucket key source =
      ⟨(putS3Cse env bucket key kmskeyid source).1,
        if flagBool then go "\x7b \"VersionId\": " ++ versionId ++ go " \x7d\n" else [], [],
        .returned⟩ := by
  unfold putCmd.RunUpload
  generalize putS3Cse env bucket key kmskeyid source = r at hok
  obtain ⟨log, c⟩ := r
  subst hok
  rfl

/-! ## Reports and validation: claims C6 to C9 -/

/-- C6, as stated, fails: when the backend answers a successful put with a nil
`VersionId` (a bucket without versioning), the verbose report is
`{ "VersionId": null }`, and no double-quoted text stands in it. -/
theorem C6_nil_version_reports_null :
    (putCmd.Run (sampleEnv (.ok none)) (go "cmk") true
        [go "report.pdf", go "mybucket"]).stdout = go "\x7b \"VersionId\": null \x7d\n" ∧
      (putCmd.Run (sampleEnv (.ok none)) (go "cmk") true
        [go "report.pdf", go "mybucket"]).status = .returned ∧
      ¬ ∃ q : GoString, q.head? = some 0x22 ∧
        (putCmd.Run (sampleEnv (.ok none)) (go "cmk") true
          [go "report.pdf", go "mybucket"]).stdout =
          go "\x7b \"VersionId\": " ++ q ++ go " \x7d\n" := by
  have hout : (putCmd.Run (sampleEnv (.ok none)) (go "cmk") true
      [go "report.pdf", go "mybucket"]).stdout =
      go "\x7b \"VersionId\": " ++ go "null" ++ go " \x7d\n" := by decide
  refine ⟨by decide, by decide, ?_⟩
  rintro ⟨q, hq, h⟩
  rw [hout, List.append_assoc, List.append_assoc] at h
  have h2 := List.append_cancel_right (List.append_cancel_left h)
  rw [← h2] at hq
  revert hq
  decide

/-- C6, amended: for every successful put with the verbose flag set, the
handler writes to standard output exactly `{ "VersionId": <j> }` and a newline,
where `<j>` is what `json.Marshal` returns for the `VersionId` field of the
answer: the encoding of the identifier by the string encoder of `encoding/json`
when the field is set, and `null` when it is nil.  For an identifier that the
encoder writes unchanged between two double quotes, the output is the
identifier between double quotes inside the braces.  Nothing is written to
standard error and the handler returns. -/
theorem C6_verbose_report (env : Env) (kmskeyid source url bucket parsedKey key : GoString)
    (file : File) (size : Nat) (versionId : Option GoString)
    (hparse : env.parseS3Url url = .ok (bucket, parsedKey))
    (hkey : putCmd.RunKey parsedKey source = some key)
    (hopen : env.osOpen source = .ok file) (hstat : file.stat = some size)
    (hsess : env.newSession = none)
    (hput : env.putObject bucket key (env.detectContentType (file.read size))
      (file.read size) kmskeyid = .ok versionId) :
    (∀ v, versionId = some v →
        (putCmd.Run env kmskeyid true [source, url]).stdout =
          go "\x7b \"VersionId\": " ++ env.jsonString v ++ go " \x7d\n" ∧
        (env.jsonString v = [0x22] ++ v ++ [0x22] →
          (putCmd.Run env kmskeyid true [source, url]).stdout =
            go "\x7b \"VersionId\": \"" ++ v ++ go "\" \x7d\n")) ∧
      (versionId = none →
        (putCmd.Run env kmskeyid true [source, url]).stdout =
          go "\x7b \"VersionId\": null \x7d\n") ∧
      (putCmd.Run env kmskeyid true [source, url]).stderr = [] ∧
      (putCmd.Run env kmskeyid true [source, url]).status = .returned := by
  have hret := putS3Cse_ok env bucket key kmskeyid source file size versionId hopen hstat
    hsess hput
  rw [Run_of_key env kmskeyid true source url bucket parsedKey key hparse hkey,
    RunUpload_ok env kmskeyid true bucket key source _ hret]
  refine ⟨?_, ?_, rfl, rfl⟩
  · intro v hv
    subst hv
    refine ⟨rfl, fun henc => ?_⟩
    show go "\x7b \"VersionId\": " ++ env.jsonString v ++ go " \x7d\n" =
      go "\x7b \"VersionId\": \"" ++ v ++ go "\" \x7d\n"
    have hpre : go "\x7b \"VersionId\": \"" = go "\x7b \"VersionId\": " ++ [0x22] := by
      decide
    have hpost : go "\" \x7d\n" = [0x22] ++ go " \x7d\n" := by decide
    rw [henc, hpre, hpost]
    simp [List.append_assoc]
  · intro hv
    subst hv
    rfl

/-- C6, amended, at the identifier `v123`: the report is `{ "VersionId": "v123" }`
and a newline. -/
theorem C6_verbose_report_witness :
    (putCmd.Run (sampleEnv (.ok (some (go "v123")))) (go "cmk") true
        [go "report.pdf", go "mybucket/archive/"]).stdout =
      go "\x7b \"VersionId\": \"v123\" \x7d\n" :=
  ((C6_verbose_report (sampleEnv (.ok (some (go "v123")))) (go "cmk") (go "report.pdf")
    (go "mybucket/archive/") (go "mybucket") (go "archive/") (go "archive/report.pdf")
    ⟨some 5, fun n => (go "%PDF-").take n⟩ 5 (some (go "v123"))
    rfl (by decide) rfl rfl rfl rfl).1 (go "v123") rfl).2 rfl

/-- C7: for every error that `putS3Cse` returns, and for both values of the
verbose flag, the handler writes `err uploading file: `, the message of the
error and a newline to standard error, writes nothing to standard output and
exits with status 1.  When the backend rejects the put with the message `m`,
the message of the error is `bad response: ` followed by `m`, so that `m`
stands unchanged at the end of the diagnostic. -/
theorem C7_error_report (env : Env) (kmskeyid : GoString) (flagBool : Bool)
    (source url bucket parsedKey key : GoString) (log : List Effect) (e : GoError)
    (hparse : env.parseS3Url url = .ok (bucket, parsedKey))
    (hkey : putCmd.RunKey parsedKey source = some key)
    (herr : putS3Cse env bucket key kmskeyid source = (log, .returned (.error e))) :
    putCmd.Run env kmskeyid flagBool [source, url] =
        ⟨.parseS3Url url :: log, [], go "err uploading file: " ++ e ++ go "\n", .exited 1⟩ ∧
      ∀ (file : File) (size : Nat) (m : GoError),
        env.osOpen source = .ok file → file.stat = some size → env.newSession = none →
        env.putObject bucket key (env.detectContentType (file.read size))
          (file.read size) kmskeyid = .error m →
        e = go "bad response: " ++ m ∧
          (putCmd.Run env kmskeyid flagBool [source, url]).stderr =
            go "err uploading file: bad response: " ++ m ++ go "\n" := by
  have hrun : putCmd.Run env kmskeyid flagBool [source, url] =
      ⟨.parseS3Url url :: log, [], go "err uploading file: " ++ e ++ go "\n", .exited 1⟩ := by
    rw [Run_of_key env kmskeyid flagBool source url bucket parsedKey key hparse hkey,
      RunUpload_error env kmskeyid flagBool bucket key source log e herr]
  refine ⟨hrun, ?_⟩
  intro file size m hopen hstat hsess hput
  have hrej := putS3Cse_rejected env bucket key kmskeyid source file size m hopen hstat
    hsess hput
  rw [herr] at hrej
  have he : e = go "bad response: " ++ m := by
    simpa using hrej
  refine ⟨he, ?_⟩
  rw [hrun, he]
  show go "err uploading file: " ++ (go "bad response: " ++ m) ++ go "\n" =
    go "err uploading file: bad response: " ++ m ++ go "\n"
  have hsplit : go "err uploading file: bad response: " =
      go "err uploading file: " ++ go "bad response: " := by decide
  rw [hsplit]
  simp [List.append_assoc]

/-- C7 at a put that the backend rejects with `AccessDenied`, verbose flag set:
the diagnostic is `err uploading file: bad response: AccessDenied`. -/
theorem C7_error_report_witness :
    putCmd.Run (sampleEnv (.error (go "AccessDenied"))) (go "cmk") true
        [go "report.pdf", go "mybucket"] =
      ⟨[.parseS3Url (go "mybucket"), .osOpen (go "report.pdf"), .fileStat (go "report.pdf"),
          .fileRead (go "report.pdf") 5, .newSession, .kmsNew, .newKMSKeyGenerator (go "cmk"),
          .newEncryptionClient,
          .putObject (go "mybucket") (go "report.pdf") (go "application/pdf") (go "%PDF-"),
          .fileClose (go "report.pdf")],
        [], go "err uploading file: bad response: AccessDenied\n", .exited 1⟩ :=
  (C7_error_report (sampleEnv (.error (go "AccessDenied"))) (go "cmk") true
    (go "report.pdf") (go "mybucket") (go "mybucket") (go "") (go "report.pdf")
    [.osOpen (go "report.pdf"), .fileStat (go "report.pdf"),
      .fileRead (go "report.pdf") 5, .newSession, .kmsNew, .newKMSKeyGenerator (go "cmk"),
      .newEncryptionClient,
      .putObject (go "mybucket") (go "report.pdf") (go "application/pdf") (go "%PDF-"),
      .fileClose (go "report.pdf")]
    (go "bad response: AccessDenied") rfl (by decide) rfl).1

/-- C8: when opening the source file fails with the error `e`, `putS3Cse`
returns no version id and the error `err opening file: ` followed by the
message of `e`; its effect log holds the open alone, so no session, key
generator, encryption client or put-object call precedes the return.  The
handler, having called it, writes a diagnostic that contains `err opening file`
to standard error and exits with status 1, with no backend effect in its log. -/
theorem C8_open_failure (env : Env) (bucket key kmskeyid source : GoString) (e : GoError)
    (hopen : env.osOpen source = .error e) :
    putS3Cse env bucket key kmskeyid source =
        ([.osOpen source], .returned (.error (go "err opening file: " ++ e))) ∧
      (∀ eff ∈ (putS3Cse env bucket key kmskeyid source).1, eff.isBackend = false) ∧
      ∀ (flagBool : Bool) (url parsedKey : GoString),
        env.parseS3Url url = .ok (bucket, parsedKey) →
        putCmd.RunKey parsedKey source = some key →
        (putCmd.Run env kmskeyid flagBool [source, url]).stderr =
            go "err uploading file: err opening file: " ++ e ++ go "\n" ∧
          go "err opening file" <:+: (putCmd.Run env kmskeyid flagBool [source, url]).stderr ∧
          (putCmd.Run env kmskeyid flagBool [source, url]).stdout = [] ∧
          (putCmd.Run env kmskeyid flagBool [source, url]).status = .exited 1 ∧
          ∀ eff ∈ (putCmd.Run env kmskeyid flagBool [source, url]).log,
            eff.isBackend = false := by
  have hput : putS3Cse env bucket key kmskeyid source =
      ([.osOpen source], .returned (.error (go "err opening file: " ++ e))) := by
    simp [putS3Cse, hopen]
  refine ⟨hput, ?_, ?_⟩
  · rw [hput]
    intro eff heff
    simp only [List.mem_singleton] at heff
    subst heff
    rfl
  · intro flagBool url parsedKey hparse hkey
    rw [Run_of_key env kmskeyid flagBool source url bucket parsedKey key hparse hkey,
      RunUpload_error env kmskeyid flagBool bucket key source _ _ hput]
    refine ⟨?_, ?_, rfl, rfl, ?_⟩
    · show go "err uploading file: " ++ (go "err opening file: " ++ e) ++ go "\n" = _
      have h2 : go "err uploading file: err opening file: " =
          go "err uploading file: " ++ go "err opening file: " := by decide
      rw [h2]
      simp [List.append_assoc]
    · show go "err opening file" <:+:
        go "err uploading file: " ++ (go "err opening file: " ++ e) ++ go "\n"
      refine ⟨go "err uploading file: ", go ": " ++ e ++ go "\n", ?_⟩
      have h3 : go "err opening file: " = go "err opening file" ++ go ": " := by decide
      rw [h3]
      simp [List.append_assoc]
    · intro eff heff
      simp only [List.mem_cons, List.mem_singleton, List.not_mem_nil, or_false] at heff
      rcases heff with h | h <;> subst h <;> rfl

/-- C8 at the source `missing.txt`, which the sample environment does not
hold: the diagnostic names the failed open and the handler exits with 1. -/
theorem C8_open_failure_witness :
    (putCmd.Run (sampleEnv (.ok none)) (go "cmk") false
        [go "missing.txt", go "mybucket"]).stderr =
        go ("err uploading file: err opening file: " ++
          "open missing.txt: no such file or directory\n") ∧
      (putCmd.Run (sampleEnv (.ok none)) (go "cmk") false
        [go "missing.txt", go "mybucket"]).status = .exited 1 :=
  have h := (C8_open_failure (sampleEnv (.ok none)) (go "mybucket") (go "missing.txt")
    (go "cmk") (go "missing.txt") (go "open missing.txt: no such file or directory")
    rfl).2.2 false (go "mybucket") (go "") rfl (by decide)
  ⟨h.1.trans (by decide), h.2.2.2.1⟩

/-- C9: the validator returns an error, without calling the parser, when the
number of arguments is not 2.  With two arguments it calls the parser on the
second one, and returns an error exactly when the parser does; the message is
then `invalid S3 URL: ` followed by that argument.  Its effect log holds no file
or network operation. -/
theorem C9_args_validation (parseS3Url : GoString → Except GoError (GoString × GoString))
    (args : List GoString) :
    (args.length ≠ 2 →
        (∃ err, (putCmd.Args parseS3Url args).2 = .returned (some err)) ∧
        (putCmd.Args parseS3Url args).1 = []) ∧
      (args.length = 2 →
        ∃ url, args[1]? = some url ∧
          (putCmd.Args parseS3Url args).1 = [.parseS3Url url] ∧
          ((∃ err, (putCmd.Args parseS3Url args).2 = .returned (some err)) ↔
            ∃ e, parseS3Url url = .error e) ∧
          ((∃ e, parseS3Url url = .error e) →
            (putCmd.Args parseS3Url args).2 =
              .returned (some (go "invalid S3 URL: " ++ url))) ∧
          ((∃ r, parseS3Url url = .ok r) →
            (putCmd.Args parseS3Url args).2 = .returned none)) ∧
      ∀ eff ∈ (putCmd.Args parseS3Url args).1, eff.isFileOrNetwork = false := by
  by_cases hlen : args.length = 2
  · obtain ⟨source, url, rfl⟩ := List.length_eq_two.mp hlen
    have hexact : cobraExactArgs 2 [source, url] = none := by
      simp [cobraExactArgs]
    refine ⟨fun h => absurd hlen h, fun _ => ⟨url, rfl, ?_⟩, ?_⟩
    · cases hp : parseS3Url url with
      | error e => simp [putCmd.Args, hexact, hp]
      | ok r => simp [putCmd.Args, hexact, hp]
    · cases hp : parseS3Url url with
      | error e =>
        intro eff heff
        simp [putCmd.Args, hexact, hp] at heff
        subst heff
        rfl
      | ok r =>
        intro eff heff
        simp [putCmd.Args, hexact, hp] at heff
        subst heff
        rfl
  · have hexact : cobraExactArgs 2 args =
        some (go "accepts " ++ go (toString 2) ++ go " arg(s), received " ++
          go (toString args.length)) := by
      simp [cobraExactArgs, hlen]
    refine ⟨fun _ => ?_, fun h => absurd h hlen, ?_⟩
    · simp [putCmd.Args, hexact]
    · intro eff heff
      simp [putCmd.Args, hexact] at heff

/-- C9 at three argument lists: one argument (rejected, the parser is not
called), two arguments with the locator `/` (rejected by the parser) and two
arguments with the locator `mybucket/final.pdf` (accepted). -/
theorem C9_args_validation_witness :
    (putCmd.Args sampleParseS3Url [go "report.pdf"]).1 = [] ∧
      putCmd.Args sampleParseS3Url [go "report.pdf"] =
        ([], .returned (some (go "accepts 2 arg(s), received 1"))) ∧
      putCmd.Args sampleParseS3Url [go "report.pdf", go "/"] =
        ([.parseS3Url (go "/")], .returned (some (go "invalid S3 URL: /"))) ∧
      (putCmd.Args sampleParseS3Url [go "report.pdf", go "mybucket/final.pdf"]).2 =
        .returned none :=
  ⟨((C9_args_validation sampleParseS3Url [go "report.pdf"]).1 (by decide)).2,
    by decide,
    by decide,
    by
      obtain ⟨url, hurl, -, -, -, hok⟩ :=
        (C9_args_validation sampleParseS3Url
          [go "report.pdf", go "mybucket/final.pdf"]).2.1 rfl
      have hu : url = go "mybucket/final.pdf" := by
        simpa using hurl.symm
      subst hu
      exact hok ⟨_, rfl⟩⟩

end Crossing
